import Mathlib

/-!
Verification of the data-reconciliation logic of the BQRM weather-bulletin
pipelines (BMSLA / sonelgaz / BQCP24h).  Pandas tables are embedded as lists of
rows keyed by the station-name column; numeric cells are `Option ℚ` (with
`none` playing the role of NaN); the placeholder substitution `fillna("/")`
turns cells into a sum of a number and the literal slash.  Script prologues and
load stages that may call `sys.exit` are embedded as `Except Nat` computations
whose error value is the process exit code.
-/

namespace BQRM

/-- A numeric pandas cell: a rational value, or `none` for NaN (missing). -/
abbrev NCell := Option ℚ

/-- A station-keyed pandas table: the rows in order, each a station name (the
`Station` / `stationOrSiteName` column) paired with the non-key fields. -/
abbrev Table (α : Type) : Type := List (String × α)

/- ------------------------------------------------------------------ -/
/- Station-alias mapping (`Series.replace(station_mapping)`)           -/
/- ------------------------------------------------------------------ -/

/-- One application of `Series.replace(station_mapping)` to a station name:
exact-match substitution from a fixed mapping; a name that is not a key of the
mapping passes through unchanged (embeds
`obs_minmax["stationOrSiteName"].replace(station_mapping)` in
`6-create_tables.py`). -/
def replaceStation (m : List (String × String)) (s : String) : String :=
  match m.lookup s with
  | some t => t
  | none => s

/-- The BMSLA `station_mapping` literal of `BMSLA/scr/6-create_tables.py`. -/
def bmsla_station_mapping : List (String × String) :=
  [("M\x27SILA", "MSILA"),
   ("EL BAYADH", "EL-BAYADH"),
   ("OULED DJELLAL", "OULED-DJELLAL"),
   ("EL M\x27GHAIR", "EL-MGHAIR"),
   ("EL OUED", "EL-OUED"),
   ("EL MENIAA", "EL-GOLEA"),
   ("BENI ABBES", "BENI-ABBES"),
   ("IN SALAH", "IN-SALAH"),
   ("BORDJ BADJI MOKHTARI", "B-B-MOKHTAR"),
   ("IN GUEZZAM", "IN-GUEZZAM")]

/-- The sonelgaz `station_mapping` literal of `sonelgaz/scr/6-create_tables.py`. -/
def sonelgaz_station_mapping : List (String × String) :=
  [("BEJAIA-AEROPORT", "BEJAIA"),
   ("ORAN-SENIA", "ORAN"),
   ("MASCARA-GHRISS", "MASCARA"),
   ("TLEMCEN-ZENATA", "TLEMCEN"),
   ("JIJEL-ACHOUAT", "JIJEL"),
   ("M\x27SILA", "MSILA")]

lemma lookup_mem_values {m : List (String × String)} {s t : String}
    (h : m.lookup s = some t) : t ∈ m.map Prod.snd := by
  obtain ⟨l₁, l₂, rfl, -⟩ := List.lookup_eq_some_iff.mp h
  simp

/-- If no value of the mapping is itself a key, one substitution pass is a
fixed point of a second one. -/
lemma replaceStation_idem (m : List (String × String))
    (h : ∀ p ∈ m, m.lookup p.2 = none) (s : String) :
    replaceStation m (replaceStation m s) = replaceStation m s := by
  unfold replaceStation
  cases hm : m.lookup s with
  | none => simp [hm]
  | some t =>
    obtain ⟨p, hp, rfl⟩ := List.mem_map.mp (lookup_mem_values hm)
    rw [h p hp]

/- ------------------------------------------------------------------ -/
/- Script prologue: shared log file argument (exit-code semantics)     -/
/- ------------------------------------------------------------------ -/

/-- Python truthiness of the parsed optional string argument: `None` and the
empty string are falsy. -/
def truthyStr : Option String → Bool
  | none => false
  | some s => !(s == "")

/-- Prologue of the BMSLA downstream scripts `3-create_forecast_table.py`
(lines 33-42), `5-traitement_obs_min_max.py` (lines 35-48),
`6-create_tables.py` (lines 32-42) and `7-create_word.py` (lines 35-42):
`--shared-log-file` is an *optional* argparse flag, so parsing succeeds when
it is absent (`args.shared_log_file = None`), and the script then runs
`if not args.shared_log_file: sys.exit(1)`. -/
def guardedFlagCheck (arg : Option String) : Except Nat Unit :=
  if truthyStr arg then Except.ok () else Except.error 1

/-- Prologue of BMSLA `2-conv.py` (lines 24-28): the flag is declared with
`required=True` and no `sys.exit(1)` guard follows `parse_args()`, so an
absent flag makes argparse print a usage error and terminate the process with
`SystemExit(2)`, while any supplied value — the empty string included — falls
through to the rest of the script. -/
def requiredFlagCheck (arg : Option String) : Except Nat Unit :=
  match arg with
  | none => Except.error 2
  | some _ => Except.ok ()

/-- Prologue of BMSLA `8-send_MSG.py` (lines 59-72): the flag is optional and
no guard follows `parse_args()` at all — with the flag absent the script
continues and `setup_logger` falls back to a log file of its own. -/
def unguardedFlagCheck (_arg : Option String) : Except Nat Unit :=
  Except.ok ()

/-- argparse parsing of a *required positional* argument: when it is missing
from `argv`, argparse prints a usage error and raises `SystemExit(2)` before
any script code after `parse_args()` runs; otherwise the first positional is
returned. -/
def argparseRequiredPositional (argv : List String) : Except Nat String :=
  match argv with
  | [] => Except.error 2
  | a :: _ => Except.ok a

/-- Prologue of the sonelgaz downstream scripts `4-traitement_obs.py`
(lines 25-35), `5-traitement_obs_min_max.py` (lines 31-40),
`6-create_tables.py` (lines 35-44), `7-create_word.py` (lines 32-41) and
`8-send_MSG.py` (lines 33-44): `shared_path_log_file` is a *required
positional* argument, followed by
`if not args.shared_path_log_file: sys.exit(1)`. -/
def guardedPositionalCheck (argv : List String) : Except Nat Unit :=
  match argparseRequiredPositional argv with
  | Except.error c => Except.error c
  | Except.ok s => if s == "" then Except.error 1 else Except.ok ()

/-- Prologue of sonelgaz `3-create_forecast_table.py` (lines 29-41): the same
required positional argument, but with no guard after `parse_args()` — absence
is an argparse usage error (exit 2), and any supplied value, the empty string
included, falls through. -/
def unguardedPositionalCheck (argv : List String) : Except Nat Unit :=
  match argparseRequiredPositional argv with
  | Except.error c => Except.error c
  | Except.ok _ => Except.ok ()

/- ------------------------------------------------------------------ -/
/- Load stages of the table builders (failure semantics)               -/
/- ------------------------------------------------------------------ -/

/-- BMSLA forecast load (`BMSLA/scr/6-create_tables.py`, lines 81-86): a
read/parse failure of the arpege CSV yields an empty frame, and
`if arpege.empty: ... sys.exit(1)` aborts the run with exit code 1. -/
def bmslaForecastLoad (arpege : Table α) : Except Nat (Table α) :=
  if arpege.isEmpty then Except.error 1 else Except.ok arpege

/-- BMSLA tmin/tmax observation load (`BMSLA/scr/6-create_tables.py`,
lines 131-137): same pattern, `if obs_minmax.empty: ... sys.exit(1)`. -/
def bmslaObsMinMaxLoad (t : Table α) : Except Nat (Table α) :=
  if t.isEmpty then Except.error 1 else Except.ok t

/-- sonelgaz arpege load (`sonelgaz/scr/6-create_tables.py`, lines 70-78):
any exception while loading the forecast CSV is caught and answered with
`exit(1)`; `none` models the read/parse failure. -/
def sonelgazArpegeLoad (src : Option (Table α)) : Except Nat (Table α) :=
  match src with
  | none => Except.error 1
  | some t => Except.ok t

/-- sonelgaz observation loads (`sonelgaz/scr/6-create_tables.py`,
lines 129-134 and 153-158): a failure while loading/processing an observation
CSV is caught, an error is logged, and the stage substitutes an empty
DataFrame carrying only the observation columns; the run continues. -/
def sonelgazObsLoad (src : Option (Table α)) : Table α :=
  match src with
  | none => []
  | some t => t

/- ------------------------------------------------------------------ -/
/- NaN-aware min/max reduction                                         -/
/- ------------------------------------------------------------------ -/

/-- Modelled from the spec: `pytaps.numpy_utils.calculate_nan_min_max` lives in
the external `pytaps` package, not in this repository; per spec §4.2 its
row-wise minimum has `nanmin` semantics — ignore missing entries when at least
one present value exists in the row, else produce missing. -/
def nanMin (row : List NCell) : NCell := (row.filterMap id).min?

/-- Modelled from the spec: the `nanmax` half of
`pytaps.numpy_utils.calculate_nan_min_max` (see `nanMin`). -/
def nanMax (row : List NCell) : NCell := (row.filterMap id).max?

/-- Modelled from the spec: `calculate_nan_min_max` applied to the transposed
(stations × lead-times) sample matrix returns the per-station nan-aware minima
and maxima (`BMSLA/scr/3-create_forecast_table.py`, lines 176-199, calls it on
`t2m_all_times_0_24h`). -/
def calculate_nan_min_max (a : List (List NCell)) : List NCell × List NCell :=
  (a.map nanMin, a.map nanMax)

/- ------------------------------------------------------------------ -/
/- Rounding and precipitation formatting                               -/
/- ------------------------------------------------------------------ -/

/-- Rounding of a rational to the nearest integer with ties to even, the
semantics of numpy/pandas `DataFrame.round(0)` used on all temperature
columns.  `mkRat (2 * q.floor + 1) 2` is the midpoint `q.floor + 1/2`, spelled
with `mkRat` so that the definition evaluates by kernel reduction. -/
def npRoundInt (q : ℚ) : ℤ :=
  if q < mkRat (2 * q.floor + 1) 2 then q.floor
  else if mkRat (2 * q.floor + 1) 2 < q then q.floor + 1
  else if q.floor % 2 = 0 then q.floor else q.floor + 1

/-- `DataFrame.round(0)` on one cell value, as a rational. -/
def npRound (q : ℚ) : ℚ := (npRoundInt q : ℚ)

/-- A value reaching `format_precip` (`BQCP24h/Synop24h.py`, lines 173-184):
either NaN (`pd.isna` is true), or a number, or a non-numeric object whose
comparison with `0` raises `TypeError`/`ValueError`. -/
inductive PrecipVal where
  | na : PrecipVal
  | num (q : ℚ) : PrecipVal
  | nonNumeric : PrecipVal
deriving DecidableEq

/-- The Python f-string `f"{value:.1f}"`: the value rounded (ties to even) to
one decimal place, rendered with exactly one digit after the point (stated for
the non-negative values that reach this branch). -/
def fmtOneDecimal (q : ℚ) : String :=
  let n := npRoundInt (q * 10)
  toString (n / 10) ++ "." ++ toString (n % 10).natAbs

/-- `format_precip` of `BQCP24h/Synop24h.py` (lines 173-184): NaN or a value
`<= 0` formats as `"0"`, a positive value `< 0.1` as `"Tr"`, any other number
with one decimal, and a `TypeError`/`ValueError` during the comparison is
caught and answered with `"/"`. -/
def format_precip (v : PrecipVal) : String :=
  match v with
  | PrecipVal.na => "0"
  | PrecipVal.num q =>
      if q ≤ 0 then "0"
      else if q < mkRat 1 10 then "Tr"
      else fmtOneDecimal q
  | PrecipVal.nonNumeric => "/"

/- ------------------------------------------------------------------ -/
/- The reconciliation pipeline of `6-create_tables.py`                 -/
/- ------------------------------------------------------------------ -/

/-- The key column of a table, in row order. -/
def keys (t : Table α) : List String := t.map Prod.fst

/-- A cell after `fillna("/")`: a number or the printable placeholder. -/
inductive Cell where
  | num (q : ℚ) : Cell
  | slash : Cell
deriving DecidableEq

/-- `fillna("/")` on one cell. -/
def toCell : NCell → Cell
  | some q => Cell.num q
  | none => Cell.slash

/-- The non-key columns of the processed BMSLA forecast table `t_demain_arp`
(`prev_min`, `prev_max`, `prev_max_48`). -/
structure ArpFields where
  prev_min : NCell
  prev_max : NCell
  prev_max_48 : NCell
deriving DecidableEq

/-- The non-key columns of the processed observation table `t_obs_minmax`
(`tmin_obs`, `tmax_obs`). -/
structure ObsFields where
  tmin_obs : NCell
  tmax_obs : NCell
deriving DecidableEq

/-- The non-key columns of the final table, in the `columns_order` of
`BMSLA/scr/6-create_tables.py`, line 178. -/
structure FinalFields where
  tmin_obs : Cell
  prev_min : Cell
  tmax_obs : Cell
  prev_max : Cell
  prev_max_48 : Cell
deriving DecidableEq

/-- The all-placeholder payload of a station absent from every source. -/
def allSlash : FinalFields :=
  ⟨Cell.slash, Cell.slash, Cell.slash, Cell.slash, Cell.slash⟩

/-- `DataFrame.round(0)` on the forecast columns. -/
def roundArp (a : ArpFields) : ArpFields :=
  ⟨a.prev_min.map npRound, a.prev_max.map npRound, a.prev_max_48.map npRound⟩

/-- `DataFrame.round(0)` on the observation columns. -/
def roundObs (o : ObsFields) : ObsFields :=
  ⟨o.tmin_obs.map npRound, o.tmax_obs.map npRound⟩

/-- The merge rows contributed by one left row `p`: pandas pairs `p` with every
right row of the same key, or keeps `p` alone with the right columns missing
when no right row matches. -/
def mergeRowsFor (r : Table β) (p : String × α) : Table (Option α × Option β) :=
  if (r.filter fun q => q.1 == p.1).isEmpty then [(p.1, (some p.2, none))]
  else (r.filter fun q => q.1 == p.1).map fun q => (p.1, (some p.2, some q.2))

/-- `pd.merge(l, r, on="Station", how="outer")`: every left row expanded by its
key matches, then the right rows whose key never occurs on the left, with the
left columns missing.  (The final station reindex makes the row order
immaterial downstream.) -/
def outerMerge (l : Table α) (r : Table β) : Table (Option α × Option β) :=
  l.flatMap (mergeRowsFor r) ++
    ((r.filter fun q => !(l.any fun p => p.1 == q.1)).map
      fun q => (q.1, (none, some q.2)))

/-- `df.set_index("Station").reindex(L).reset_index()`: one row per name of
`L`, in `L`'s order; a name with no row in `t` receives the all-missing
payload `d`.  Pandas demands a duplicate-free index here (it raises on
duplicate labels), under which the first match below is the only match. -/
def reindexTo (d : α) (L : List String) (t : Table α) : Table α :=
  L.map fun s => (s, ((t.find? fun p => p.1 == s).map Prod.snd).getD d)

/-- `sort_values("Station")` after making the column categorical with the
ordered categories `L`: a stable bucket pass in category order (on the
pairwise-distinct station column produced by the reindex, every comparison
sort yields this order). -/
def sortByCat (L : List String) (t : Table α) : Table α :=
  L.flatMap fun s => t.filter fun p => p.1 == s

/-- `fillna("/")` on a merged row: a side that contributed no row leaves all
of its columns missing. -/
def fillFields (p : Option ArpFields × Option ObsFields) : FinalFields :=
  ⟨toCell (p.2.bind ObsFields.tmin_obs),
   toCell (p.1.bind ArpFields.prev_min),
   toCell (p.2.bind ObsFields.tmax_obs),
   toCell (p.1.bind ArpFields.prev_max),
   toCell (p.1.bind ArpFields.prev_max_48)⟩

/-- The BMSLA stage-6 reconciliation (`BMSLA/scr/6-create_tables.py`, lines
101-192): round the forecast columns (`t_demain_arp`), alias-map and round the
observation columns (`t_obs_minmax`), outer-merge on `Station`, `fillna("/")`,
reindex the rows to the canonical station list (absent stations become
all-placeholder rows, filled by the second `fillna`), and sort by the list's
categorical order.  The sonelgaz `tab_region` blocks
(`sonelgaz/scr/6-create_tables.py`, lines 207-215) apply the same
reindex-and-sort to each region list. -/
def mergedFilled (mapping : List (String × String))
    (arp : Table ArpFields) (obs : Table ObsFields) : Table FinalFields :=
  (outerMerge (arp.map fun p => (p.1, roundArp p.2))
      (obs.map fun p => (replaceStation mapping p.1, roundObs p.2))).map
    fun p => (p.1, fillFields p.2)

def buildFinalTable (L : List String) (mapping : List (String × String))
    (arp : Table ArpFields) (obs : Table ObsFields) : Table FinalFields :=
  sortByCat L (reindexTo allSlash L (mergedFilled mapping arp obs))

/-- The `stations_list` literal shared by BMSLA stages 5 and 6. -/
def stations_list : List String :=
  ["NAAMA", "EL-BAYADH", "LAGHOUAT", "DJELFA", "MSILA", "BISKRA",
   "BATNA", "KHENCHELLA", "TEBESSA", "OULED-DJELLAL", "EL-MGHAIR",
   "EL-OUED", "TOUGGOURT", "OUARGLA", "GHARDAIA", "EL-GOLEA", "TIMIMOUN",
   "BECHAR", "BENI-ABBES", "TINDOUF", "ADRAR", "IN-SALAH", "ILLIZI",
   "DJANET", "TAMANRASSET", "B-B-MOKHTAR", "IN-GUEZZAM"]

/- ------------------------------------------------------------------ -/
/- Observation de-duplication (stage 5)                                -/
/- ------------------------------------------------------------------ -/

/-- One raw observation row of stage 5 after column selection
(`select_existing_columns`): the `stationOrSiteName` key and the
(tmin, tmax) cells. -/
abbrev ObsRaw : Type := String × NCell × NCell

/-- `filtered_df.isna().sum(axis=1)` for one row: the number of missing
fields.  The key column always holds a string on the rows that survived the
`isin(stations_list)` filter, so only the two non-key columns contribute. -/
def nanCount (r : ObsRaw) : Nat :=
  (if r.2.1 = none then 1 else 0) + (if r.2.2 = none then 1 else 0)

/-- The rows of one station's group, in original order (pandas `groupby`
preserves the within-group row order). -/
def groupOf (rows : List ObsRaw) (s : String) : List ObsRaw :=
  rows.filter fun r => r.1 == s

/-- `filtered_df.loc[filtered_df.isna().sum(axis=1).groupby(
filtered_df["stationOrSiteName"]).idxmin()]` restricted to one station: the
row whose index label `idxmin` returns for that group — the first row of the
group attaining the minimal missing-field count
(`BMSLA/scr/5-traitement_obs_min_max.py`, line 159, and
`sonelgaz/scr/5-traitement_obs_min_max.py`, line 158). -/
def keptRow (rows : List ObsRaw) (s : String) : Option ObsRaw :=
  match ((groupOf rows s).map nanCount).min? with
  | none => none
  | some m => (groupOf rows s).find? fun r => nanCount r == m

/-- The duplicate observation rows of spec scenario 7: two rows for station
X, each with one missing field. -/
def obsRowsX : List ObsRaw := [("X", some 5, none), ("X", none, some 25)]

/- Helper lemmas about the table operations. -/

lemma keys_reindexTo (d : α) (L : List String) (t : Table α) :
    keys (reindexTo d L t) = L := by
  have hid : (Prod.fst ∘ fun s =>
      (s, ((t.find? fun p => p.1 == s).map Prod.snd).getD d)) = id := rfl
  rw [keys, reindexTo, List.map_map, hid, List.map_id]

lemma filter_beq_eq_nil_of_not_mem {L : List String} {s : String} (h : s ∉ L) :
    L.filter (fun x => x == s) = [] := by
  rw [List.filter_eq_nil_iff]
  intro x hx hxs
  exact h ((beq_iff_eq.mp hxs) ▸ hx)

lemma filter_beq_singleton_of_nodup {L : List String} (hL : L.Nodup) {s : String}
    (hs : s ∈ L) : L.filter (fun x => x == s) = [s] := by
  induction L with
  | nil => cases hs
  | cons a L ih =>
    obtain ⟨ha, hL'⟩ := List.nodup_cons.mp hL
    rw [List.filter_cons]
    rcases List.mem_cons.mp hs with rfl | hmem
    · rw [if_pos (by simp), filter_beq_eq_nil_of_not_mem ha]
    · have hne : (a == s) = false := by
        refine beq_eq_false_iff_ne.mpr ?_
        rintro rfl
        exact ha hmem
      rw [hne]
      simp only [Bool.false_eq_true, if_false]
      exact ih hL' hmem

lemma flatMap_congr_mem {M : List σ} {f g : σ → List τ}
    (h : ∀ s ∈ M, f s = g s) : M.flatMap f = M.flatMap g := by
  induction M with
  | nil => rfl
  | cons a M ih =>
    rw [List.flatMap_cons, List.flatMap_cons, h a (List.mem_cons_self a M),
      ih fun s hs => h s (List.mem_cons_of_mem a hs)]

/-- Sorting a table of the shape produced by `reindexTo` by the categorical
order of a duplicate-free `L` leaves it unchanged. -/
lemma sortByCat_map_key (L : List String) (hL : L.Nodup) (g : String → α) :
    sortByCat L (L.map fun s => (s, g s)) = L.map fun s => (s, g s) := by
  induction L with
  | nil => rfl
  | cons a L ih =>
    obtain ⟨ha, hL'⟩ := List.nodup_cons.mp hL
    rw [sortByCat, List.flatMap_cons]
    have hhead : ((a :: L).map fun s => (s, g s)).filter (fun p => p.1 == a)
        = [(a, g a)] := by
      rw [List.map_cons, List.filter_cons, if_pos (by simp), List.filter_map]
      have hnil : (L.filter ((fun p => (p.1 == a : Bool)) ∘ fun s => (s, g s))) = [] := by
        rw [List.filter_eq_nil_iff]
        intro x hx hxa
        exact ha ((beq_iff_eq.mp hxa) ▸ hx)
      rw [hnil]
      rfl
    have htail : (L.flatMap fun s =>
        ((a :: L).map fun x => (x, g x)).filter (fun p => p.1 == s))
        = sortByCat L (L.map fun s => (s, g s)) := by
      rw [sortByCat]
      refine flatMap_congr_mem ?_
      intro s hsmem
      rw [List.map_cons, List.filter_cons]
      have hne : ¬ ((((a, g a) : String × α).1 == s) = true) := by
        simp only [beq_iff_eq]
        rintro rfl
        exact ha hsmem
      rw [if_neg hne]
    rw [hhead, htail, ih hL', List.map_cons]
    rfl

lemma find?_key_eq_none {t : Table α} {s : String} (h : s ∉ keys t) :
    (t.find? fun p => p.1 == s) = none := by
  rw [List.find?_eq_none]
  intro p hp hps
  exact h ((beq_iff_eq.mp hps) ▸ List.mem_map_of_mem Prod.fst hp)

lemma mem_keys_mergeRowsFor {r : Table β} {p : String × α} {row}
    (h : row ∈ mergeRowsFor r p) : row.1 = p.1 := by
  rw [mergeRowsFor] at h
  split at h
  · rw [List.mem_singleton] at h
    subst h
    rfl
  · obtain ⟨q, hq, rfl⟩ := List.mem_map.mp h
    rfl

lemma mem_keys_outerMerge {l : Table α} {r : Table β} {s : String}
    (h : s ∈ keys (outerMerge l r)) : s ∈ keys l ∨ s ∈ keys r := by
  rw [keys, outerMerge, List.map_append] at h
  rcases List.mem_append.mp h with h | h
  · obtain ⟨row, hrow, rfl⟩ := List.mem_map.mp h
    obtain ⟨p, hp, hmem⟩ := List.mem_flatMap.mp hrow
    left
    rw [mem_keys_mergeRowsFor hmem]
    exact List.mem_map_of_mem Prod.fst hp
  · obtain ⟨row, hrow, rfl⟩ := List.mem_map.mp h
    obtain ⟨q, hq, rfl⟩ := List.mem_map.mp hrow
    right
    exact List.mem_map_of_mem Prod.fst (List.mem_of_mem_filter hq)

/-- Filtering the left half of an outer merge by a key commutes with first
filtering the left table by that key. -/
lemma filter_key_flatMap (l : Table α) (r : Table β) (s : String) :
    (l.flatMap (mergeRowsFor r)).filter (fun row => row.1 == s)
      = (l.filter fun p => p.1 == s).flatMap (mergeRowsFor r) := by
  induction l with
  | nil => rfl
  | cons p l ih =>
    rw [List.flatMap_cons, List.filter_append, ih, List.filter_cons]
    cases hp : (p.1 == s) with
    | true =>
      have : (mergeRowsFor r p).filter (fun row => row.1 == s) = mergeRowsFor r p := by
        rw [List.filter_eq_self]
        intro row hrow
        rw [mem_keys_mergeRowsFor hrow]
        exact hp
      rw [this]
      simp [hp, List.flatMap_cons]
    | false =>
      have : (mergeRowsFor r p).filter (fun row => row.1 == s) = [] := by
        rw [List.filter_eq_nil_iff]
        intro row hrow hrs
        rw [mem_keys_mergeRowsFor hrow] at hrs
        rw [hp] at hrs
        cases hrs
      rw [this]
      simp [hp]

lemma filter_key_eq_nil_of_not_mem {t : Table α} {s : String} (h : s ∉ keys t) :
    t.filter (fun p => p.1 == s) = [] := by
  rw [List.filter_eq_nil_iff]
  intro p hp hps
  exact h ((beq_iff_eq.mp hps) ▸ List.mem_map_of_mem Prod.fst hp)

lemma filter_key_singleton_of_count_one {t : Table α} {s : String}
    (h : (keys t).count s = 1) :
    ∃ a, t.filter (fun p => p.1 == s) = [(s, a)] := by
  induction t with
  | nil => simp [keys] at h
  | cons p t ih =>
    rw [List.filter_cons]
    by_cases hp : p.1 = s
    · have hcnt : (List.map Prod.fst t).count s = 0 := by
        rw [keys, List.map_cons, hp, List.count_cons_self] at h
        omega
      have hnot : s ∉ keys t := by
        rw [keys, ← List.count_pos_iff]
        omega
      refine ⟨p.2, ?_⟩
      rw [if_pos (by simp [hp]), filter_key_eq_nil_of_not_mem hnot]
      cases p
      cases hp
      rfl
    · have hcnt : (keys t).count s = 1 := by
        rw [keys, List.map_cons] at h
        rw [List.count_cons_of_ne (by exact fun hc => hp hc.symm)] at h
        exact h
      obtain ⟨a, ha⟩ := ih hcnt
      refine ⟨a, ?_⟩
      have : (p.1 == s) = false := beq_eq_false_iff_ne.mpr hp
      rw [this]
      simpa using ha

lemma keys_map_payload (t : Table α) (f : String × α → γ) :
    keys (t.map fun p => (p.1, f p)) = keys t := by
  rw [keys, keys, List.map_map]
  rfl

/-- Filtering a key-preserving map of a table by a key commutes with first
filtering the table. -/
lemma filter_key_map (t : Table β) (f : String × β → γ) (s : String) :
    ((t.map fun q => (q.1, f q)).filter fun p => p.1 == s)
      = (t.filter fun q => q.1 == s).map fun q => (q.1, f q) := by
  induction t with
  | nil => rfl
  | cons q t ih =>
    rw [List.map_cons, List.filter_cons, List.filter_cons]
    cases hq : (q.1 == s) with
    | true => simp [hq, ih]
    | false => simp [hq, ih]

lemma sortByCat_reindexTo (d : α) (L : List String) (hL : L.Nodup) (t : Table α) :
    sortByCat L (reindexTo d L t) = reindexTo d L t :=
  sortByCat_map_key L hL _

lemma not_mem_keys_mergedFilled {mapping : List (String × String)}
    {arp : Table ArpFields} {obs : Table ObsFields} {s : String}
    (ha : s ∉ keys arp) (ho : ∀ p ∈ obs, replaceStation mapping p.1 ≠ s) :
    s ∉ keys (mergedFilled mapping arp obs) := by
  intro hmem
  rw [mergedFilled, keys_map_payload] at hmem
  rcases mem_keys_outerMerge hmem with h | h
  · rw [keys_map_payload] at h
    exact ha h
  · rw [keys, List.map_map] at h
    obtain ⟨p, hp, hps⟩ := List.mem_map.mp h
    exact ho p hp hps

/- ================================================================== -/
/- Claim theorems (first group)                                        -/
/- ================================================================== -/

/-- C7: applying the station-alias mapping twice gives the same result as
applying it once — for every station name, a second substitution pass through
the BMSLA or sonelgaz `station_mapping` (whose targets are already canonical
names, not keys) changes nothing. -/
theorem alias_mapping_idempotent (s : String) :
    replaceStation bmsla_station_mapping (replaceStation bmsla_station_mapping s)
      = replaceStation bmsla_station_mapping s ∧
    replaceStation sonelgaz_station_mapping (replaceStation sonelgaz_station_mapping s)
      = replaceStation sonelgaz_station_mapping s :=
  ⟨replaceStation_idem _ (by decide) s, replaceStation_idem _ (by decide) s⟩

/-- C9 counterexample: the claim fails on several downstream chained scripts —
a sonelgaz downstream script run without the log-path argument exits with
argparse's usage-error code 2 (not 1), BMSLA `2-conv.py` does the same for its
`required=True` flag, and BMSLA `8-send_MSG.py` does not terminate at all when
the flag is absent. -/
theorem shared_log_absent_cex :
    guardedPositionalCheck [] = Except.error 2 ∧
    requiredFlagCheck none = Except.error 2 ∧
    unguardedFlagCheck none = Except.ok () ∧
    (2 : Nat) ≠ 1 := by
  refine ⟨rfl, rfl, rfl, by decide⟩

/-- C9 (amended): only the guarded downstream prologues exit with code 1, and
only on an absent-or-empty (BMSLA) or empty (sonelgaz) value.  BMSLA
`3-create_forecast_table.py`, `5-traitement_obs_min_max.py`,
`6-create_tables.py` and `7-create_word.py` exit 1 when the optional
`--shared-log-file` flag is absent or empty, and continue otherwise; BMSLA
`2-conv.py` (flag `required=True`, no guard) exits with argparse's code 2 when
the flag is absent and continues on any supplied value; BMSLA `8-send_MSG.py`
(no guard) continues even without the flag; every sonelgaz downstream script
takes the log path as a required positional, so its absence exits with
argparse's code 2, and the post-parse `sys.exit(1)` fires only for an empty
supplied string in the guarded scripts `4-traitement_obs.py` through
`8-send_MSG.py` — sonelgaz `3-create_forecast_table.py` has no guard and
continues on any supplied value. -/
theorem shared_log_exit_codes :
    guardedFlagCheck none = Except.error 1 ∧
    guardedFlagCheck (some "") = Except.error 1 ∧
    (∀ s : String, s ≠ "" → guardedFlagCheck (some s) = Except.ok ()) ∧
    requiredFlagCheck none = Except.error 2 ∧
    (∀ s : String, requiredFlagCheck (some s) = Except.ok ()) ∧
    (∀ a : Option String, unguardedFlagCheck a = Except.ok ()) ∧
    guardedPositionalCheck [] = Except.error 2 ∧
    (∀ rest : List String, guardedPositionalCheck ("" :: rest) = Except.error 1) ∧
    (∀ s : String, s ≠ "" → ∀ rest : List String,
      guardedPositionalCheck (s :: rest) = Except.ok ()) ∧
    unguardedPositionalCheck [] = Except.error 2 ∧
    (∀ s : String, ∀ rest : List String,
      unguardedPositionalCheck (s :: rest) = Except.ok ()) := by
  refine ⟨rfl, rfl, ?_, rfl, fun s => rfl, fun a => rfl, rfl, fun rest => rfl,
    ?_, rfl, fun s rest => rfl⟩
  · intro s hs
    have hbeq : (s == "") = false := beq_eq_false_iff_ne.mpr hs
    simp [guardedFlagCheck, truthyStr, hbeq]
  · intro s hs rest
    have hbeq : (s == "") = false := beq_eq_false_iff_ne.mpr hs
    simp [guardedPositionalCheck, argparseRequiredPositional, hbeq]

/-- C9 witness for the hypothesis-bearing conjuncts. -/
theorem shared_log_exit_codes_w :
    guardedFlagCheck (some "run.log") = Except.ok () ∧
    guardedPositionalCheck ["run.log"] = Except.ok () :=
  ⟨shared_log_exit_codes.2.2.1 "run.log" (by decide),
   shared_log_exit_codes.2.2.2.2.2.2.2.2.1 "run.log" (by decide) []⟩

/-- C4 counterexample: a read failure of the *forecast* source does not degrade
to an empty table — the sonelgaz table builder answers it with `exit(1)`, and
the BMSLA one exits on the resulting empty frame as well, so the run aborts. -/
theorem load_failure_cex :
    sonelgazArpegeLoad (α := Unit) none = Except.error 1 ∧
    bmslaForecastLoad (α := Unit) [] = Except.error 1 := ⟨rfl, rfl⟩

/-- C4 (amended): only the sonelgaz *observation* loads degrade a read/parse
failure to an empty table (with a logged error) and continue; the forecast
(arpege) load aborts the run with exit code 1 in both variants, and the BMSLA
tmin/tmax observation load aborts as well. -/
theorem load_failure_semantics :
    (∀ t : Table Unit, sonelgazObsLoad (some t) = t) ∧
    sonelgazObsLoad (α := Unit) none = [] ∧
    sonelgazArpegeLoad (α := Unit) none = Except.error 1 ∧
    bmslaForecastLoad (α := Unit) [] = Except.error 1 ∧
    bmslaObsMinMaxLoad (α := Unit) [] = Except.error 1 :=
  ⟨fun _ => rfl, rfl, rfl, rfl, rfl⟩

/-- C5: the per-station NaN-aware min/max reduction ignores missing samples —
a row with at least one present sample gets a present minimum and maximum, and
a row of only missing samples gets missing for both (no error). -/
theorem nan_min_max_reduction (row : List NCell) :
    ((∃ x ∈ row, x ≠ none) → nanMin row ≠ none ∧ nanMax row ≠ none) ∧
    ((∀ x ∈ row, x = none) → nanMin row = none ∧ nanMax row = none) := by
  constructor
  · rintro ⟨x, hx, hne⟩
    obtain ⟨q, rfl⟩ := Option.ne_none_iff_exists'.mp hne
    have hq : q ∈ row.filterMap id := List.mem_filterMap.mpr ⟨some q, hx, rfl⟩
    constructor
    · intro hcon
      rw [nanMin, List.min?_eq_none_iff] at hcon
      rw [hcon] at hq
      exact List.not_mem_nil q hq
    · intro hcon
      rw [nanMax, List.max?_eq_none_iff] at hcon
      rw [hcon] at hq
      exact List.not_mem_nil q hq
  · intro hall
    have hnil : row.filterMap id = [] := by
      rw [List.filterMap_eq_nil_iff]
      intro a ha
      rw [hall a ha]
      rfl
    constructor
    · rw [nanMin, hnil, List.min?_nil]
    · rw [nanMax, hnil, List.max?_nil]

/-- C5 witness: a row with one present sample, and an all-missing row. -/
theorem nan_min_max_reduction_w :
    (nanMin [some 3, none] ≠ none ∧ nanMax [some 3, none] ≠ none) ∧
    (nanMin [(none : NCell), none] = none ∧ nanMax [(none : NCell), none] = none) :=
  ⟨(nan_min_max_reduction [some 3, none]).1 ⟨some 3, by decide, by decide⟩,
   (nan_min_max_reduction [(none : NCell), none]).2 (by decide)⟩

/-- C10: `format_precip` is total and maps NaN and values `≤ 0` to `"0"`,
values strictly between 0 and 0.1 to `"Tr"`, every other numeric value to its
one-decimal rendering, and a value whose comparison raises to `"/"`. -/
theorem format_precip_total :
    format_precip PrecipVal.na = "0" ∧
    (∀ q : ℚ, q ≤ 0 → format_precip (PrecipVal.num q) = "0") ∧
    (∀ q : ℚ, 0 < q → q < mkRat 1 10 → format_precip (PrecipVal.num q) = "Tr") ∧
    (∀ q : ℚ, mkRat 1 10 ≤ q → format_precip (PrecipVal.num q) = fmtOneDecimal q) ∧
    format_precip PrecipVal.nonNumeric = "/" := by
  refine ⟨rfl, ?_, ?_, ?_, rfl⟩
  · intro q hq
    rw [format_precip, if_pos hq]
  · intro q h0 h1
    rw [format_precip, if_neg (not_le.mpr h0), if_pos h1]
  · intro q hq
    have h0 : ¬ q ≤ 0 := not_le.mpr (lt_of_lt_of_le (by decide) hq)
    rw [format_precip, if_neg h0, if_neg (not_lt.mpr hq)]

/-- C10 witness: one concrete input per hypothesis-bearing branch. -/
theorem format_precip_total_w :
    format_precip (PrecipVal.num (-1)) = "0" ∧
    format_precip (PrecipVal.num (mkRat 1 20)) = "Tr" ∧
    format_precip (PrecipVal.num (mkRat 48 5)) = fmtOneDecimal (mkRat 48 5) :=
  ⟨format_precip_total.2.1 (-1) (by decide),
   format_precip_total.2.2.1 (mkRat 1 20) (by decide) (by decide),
   format_precip_total.2.2.2.1 (mkRat 48 5) (by decide)⟩

/-- C1: for every duplicate-free canonical station list and any forecast and
observation tables whose (alias-mapped) station columns are duplicate-free —
the precondition under which the pandas station reindex is defined at all —
the reconciliation output has exactly `L.length` rows whose station column is
exactly `L`, in `L`'s order. -/
theorem reconciliation_row_set (L : List String) (mapping : List (String × String))
    (arp : Table ArpFields) (obs : Table ObsFields)
    (hL : L.Nodup)
    (_ha : (keys arp).Nodup)
    (_ho : (keys (obs.map fun p => (replaceStation mapping p.1, p.2))).Nodup) :
    keys (buildFinalTable L mapping arp obs) = L ∧
    (buildFinalTable L mapping arp obs).length = L.length := by
  constructor
  · rw [buildFinalTable, sortByCat_reindexTo _ _ hL, keys_reindexTo]
  · rw [buildFinalTable, sortByCat_reindexTo _ _ hL, reindexTo, List.length_map]

/-- C1 witness. -/
theorem reconciliation_row_set_w :
    keys (buildFinalTable ["A", "B"] []
        [("B", ⟨some 1, some 2, some 3⟩)] [("A", ⟨some 4, none⟩)]) = ["A", "B"] ∧
    (buildFinalTable ["A", "B"] []
        [("B", ⟨some 1, some 2, some 3⟩)] [("A", ⟨some 4, none⟩)]).length
      = (["A", "B"] : List String).length :=
  reconciliation_row_set _ _ _ _ (by decide) (by decide) (by decide)

/-- C3: a canonical station that occurs in no forecast row and that no
(alias-mapped) observation row resolves to still gets exactly one output row,
and all of its non-key fields are the placeholder. -/
theorem absent_station_all_placeholder (L : List String)
    (mapping : List (String × String))
    (arp : Table ArpFields) (obs : Table ObsFields) (s : String)
    (hL : L.Nodup) (hs : s ∈ L)
    (ha : s ∉ keys arp)
    (ho : ∀ p ∈ obs, replaceStation mapping p.1 ≠ s) :
    (buildFinalTable L mapping arp obs).filter (fun p => p.1 == s)
      = [(s, allSlash)] := by
  rw [buildFinalTable, sortByCat_reindexTo _ _ hL, reindexTo, List.filter_map]
  have hc : ∀ x ∈ L, (((fun p => (p.1 == s : Bool)) ∘ fun x =>
      (x, (((mergedFilled mapping arp obs).find? fun p => p.1 == x).map
        Prod.snd).getD allSlash)) x) = (x == s) := fun x _ => rfl
  rw [List.filter_congr hc, filter_beq_singleton_of_nodup hL hs]
  simp [find?_key_eq_none (not_mem_keys_mergedFilled ha ho)]

/-- C3 witness. -/
theorem absent_station_all_placeholder_w :
    (buildFinalTable ["A", "B"] [] [("B", ⟨some 1, none, some 3⟩)]
        [("B", ⟨some 9, none⟩)]).filter (fun p => p.1 == "A")
      = [("A", allSlash)] :=
  absent_station_all_placeholder _ _ _ _ "A" (by decide) (by decide) (by decide)
    (by decide)

/-- C6: the forecast/observation combination has outer-join semantics — a
station whose key occurs exactly once in one table and not at all in the other
appears exactly once in the merged result, with the other source's columns
missing. -/
theorem outer_merge_single_source (l : Table α) (r : Table β) (s : String) :
    ((keys l).count s = 1 → s ∉ keys r →
      ∃ a, (outerMerge l r).filter (fun p => p.1 == s) = [(s, (some a, none))]) ∧
    (s ∉ keys l → (keys r).count s = 1 →
      ∃ b, (outerMerge l r).filter (fun p => p.1 == s) = [(s, (none, some b))]) := by
  constructor
  · intro hl hr
    obtain ⟨a, hfa⟩ := filter_key_singleton_of_count_one hl
    refine ⟨a, ?_⟩
    rw [outerMerge, List.filter_append, filter_key_flatMap, hfa]
    have hnotr : s ∉ keys (r.filter fun q => !(l.any fun p => p.1 == q.1)) := by
      intro hmem
      rw [keys] at hmem
      obtain ⟨q, hq, rfl⟩ := List.mem_map.mp hmem
      exact hr (List.mem_map_of_mem Prod.fst (List.mem_of_mem_filter hq))
    rw [filter_key_map, filter_key_eq_nil_of_not_mem hnotr, List.map_nil,
      List.append_nil, List.flatMap_cons, mergeRowsFor]
    have hemp : ((r.filter fun q => q.1 == ((s, a) : String × α).1).isEmpty) = true := by
      rw [List.isEmpty_iff]
      exact filter_key_eq_nil_of_not_mem hr
    rw [if_pos hemp]
    rfl
  · intro hl hr
    have hleft : (l.filter fun p => p.1 == s) = [] := filter_key_eq_nil_of_not_mem hl
    obtain ⟨b, hfb⟩ := filter_key_singleton_of_count_one hr
    refine ⟨b, ?_⟩
    rw [outerMerge, List.filter_append, filter_key_flatMap, hleft, filter_key_map,
      List.filter_filter]
    have hcong : ∀ q ∈ r, (((q.1 == s) : Bool)
        && !(l.any fun p => p.1 == q.1)) = (q.1 == s) := by
      intro q _
      cases hqs : ((q.1 == s) : Bool) with
      | false => simp
      | true =>
        have hany : (l.any fun p => p.1 == q.1) = false := by
          rw [List.any_eq_false]
          intro p hp hpq
          refine hl ?_
          have h1 : p.1 = q.1 := beq_iff_eq.mp hpq
          have h2 : q.1 = s := beq_iff_eq.mp hqs
          exact (h2 ▸ h1) ▸ List.mem_map_of_mem Prod.fst hp
        simp [hany]
    rw [List.filter_congr hcong, hfb]
    rfl

/-- C6 witness. -/
theorem outer_merge_single_source_w :
    (∃ a, (outerMerge [("A", (5 : ℚ))] [("B", (7 : ℚ))]).filter
        (fun p => p.1 == "A") = [("A", (some a, none))]) ∧
    (∃ b, (outerMerge [("A", (5 : ℚ))] [("B", (7 : ℚ))]).filter
        (fun p => p.1 == "B") = [("B", (none, some b))]) :=
  ⟨(outer_merge_single_source [("A", (5 : ℚ))] [("B", (7 : ℚ))] "A").1
      (by decide) (by decide),
   (outer_merge_single_source [("A", (5 : ℚ))] [("B", (7 : ℚ))] "B").2
      (by decide) (by decide)⟩

/-- C8: temperature cells are rounded to the *nearest* integer — `npRound`
never moves a value by more than 1/2 — and the rounding happens before the
placeholder substitution: a forecast minimum of 9.6 °C reaches the final table
as the number 10 (an observed 9.6 likewise), not as 9, while cells missing
from the sources become the placeholder. -/
theorem rounding_nearest_before_placeholder :
    (∀ q : ℚ, |npRound q - q| ≤ 1/2) ∧
    buildFinalTable ["A"] [] [("A", ⟨some (mkRat 48 5), some 12, some 13⟩)]
        [("A", ⟨some (mkRat 48 5), none⟩)]
      = [("A", ⟨Cell.num 10, Cell.num 10, Cell.slash, Cell.num 12, Cell.num 13⟩)] := by
  constructor
  · intro q
    have hfl : q.floor = ⌊q⌋ := by
      rw [Rat.floor_def', Rat.floor_def]
    have h0 : ((⌊q⌋ : ℤ) : ℚ) ≤ q := Int.floor_le q
    have h1 : q < (⌊q⌋ : ℚ) + 1 := Int.lt_floor_add_one q
    have hmid : (mkRat (2 * ⌊q⌋ + 1) 2 : ℚ) = (⌊q⌋ : ℚ) + 1/2 := by
      rw [Rat.mkRat_eq_divInt, Rat.divInt_eq_div]
      push_cast
      ring
    rw [npRound, npRoundInt, hfl, hmid]
    split_ifs with hA hB hC
    · rw [abs_le]
      constructor <;> linarith
    · rw [abs_le]
      push_cast
      constructor <;> linarith
    · rw [not_lt] at hA hB
      rw [abs_le]
      constructor <;> linarith
    · rw [not_lt] at hA hB
      rw [abs_le]
      push_cast
      constructor <;> linarith
  · decide

/-- C2: the stage-5 de-duplication keeps, for every station occurring in the
observation table, exactly the row with the fewest missing fields among that
station's rows; when several rows tie for the minimum, the first one in
original input order is the one kept. -/
theorem dedup_keeps_first_min (rows : List ObsRaw) (s : String) (k : ObsRaw)
    (h : keptRow rows s = some k) :
    k ∈ groupOf rows s ∧
    (∀ r ∈ groupOf rows s, nanCount k ≤ nanCount r) ∧
    ∃ g₁ g₂, groupOf rows s = g₁ ++ k :: g₂ ∧
      ∀ r ∈ g₁, nanCount k < nanCount r := by
  rw [keptRow] at h
  cases hmin : ((groupOf rows s).map nanCount).min? with
  | none => rw [hmin] at h; cases h
  | some m =>
    rw [hmin] at h
    obtain ⟨-, hm_le⟩ := List.min?_eq_some_iff'.mp hmin
    obtain ⟨hpk, g₁, g₂, hsplit, hfirst⟩ := List.find?_eq_some.mp h
    have hkm : nanCount k = m := by simpa using hpk
    refine ⟨?_, ?_, g₁, g₂, hsplit, ?_⟩
    · rw [hsplit]
      exact List.mem_append_right _ (List.mem_cons_self _ _)
    · intro r hr
      rw [hkm]
      exact hm_le _ (List.mem_map_of_mem nanCount hr)
    · intro r hr
      have hne : nanCount r ≠ m := by simpa using hfirst r hr
      have hge : m ≤ nanCount r := by
        refine hm_le _ (List.mem_map_of_mem nanCount ?_)
        rw [hsplit]
        exact List.mem_append_left _ hr
      rw [hkm]
      exact lt_of_le_of_ne hge (Ne.symm hne)

/-- C2 witness: spec scenario 7 — two rows for station X, each with one
missing field; the first row is the one kept, at the minimal NaN count. -/
theorem dedup_keeps_first_min_w :
    (("X", some 5, none) : ObsRaw) ∈ groupOf obsRowsX "X" ∧
    (∀ r ∈ groupOf obsRowsX "X", nanCount ("X", some 5, none) ≤ nanCount r) ∧
    ∃ g₁ g₂, groupOf obsRowsX "X" = g₁ ++ (("X", some 5, none) : ObsRaw) :: g₂ ∧
      ∀ r ∈ g₁, nanCount ("X", some 5, none) < nanCount r :=
  dedup_keeps_first_min obsRowsX "X" ("X", some 5, none) (by decide)

end BQRM
